import Mathlib

/-!
Shallow embedding of `python/llguidance/_tokenizer.py` (`TokenizerWrapper`).

The wrapped ("underlying") tokenizer is a Python callable that accepts either
a byte sequence or a text string and returns a list of token ids, or raises.
We model it as a structure with one function per calling convention, each
returning `Except Nat (List TokenId)`: `Except.error e` models the callable
raising an exception carrying an opaque payload `e`, `Except.ok ts` models a
normal return of the token-id list `ts`.

Python's `s.encode("utf-8")` is modelled by `utf8`, the UTF-8 bytes of `s`
as natural numbers.  `TokenizerWrapper.init` models `__init__` (returning
`none` when construction raises), `TokenizerWrapper.encode_string` models
`_encode_string`, and `TokenizerWrapper.call` models `__call__` as explicit
state passing: it returns the post-call adapter state together with the
result, where `Except.error (EncodeError.underlying e)` is an exception of
the wrapped tokenizer propagating out and
`Except.error EncodeError.assertionFailed` is the `AssertionError` raised by
the prefix-invariant `assert` statement.
-/

/-- Token identifiers (non-negative integers in the source). -/
abbrev TokenId := Nat

/-- UTF-8 byte representation of a string, as Python's `s.encode("utf-8")`. -/
def utf8 (s : String) : List Nat :=
  s.toUTF8.data.toList.map (fun b => b.toNat)

/-- The underlying tokenizer passed to `TokenizerWrapper.__init__`:
a callable over bytes or strings plus vocabulary metadata. -/
structure GTokenizer where
  encodeBytes : List Nat → Except Nat (List TokenId)
  encodeStr : String → Except Nat (List TokenId)
  eos_token_id : TokenId
  bos_token_id : Option TokenId
  tokens : List (List Nat)

/-- Whether an `Except` computation completed without raising. -/
def exceptOk {ε α : Type} : Except ε α → Bool
  | Except.ok _ => true
  | Except.error _ => false

/-- The probe input `b"test"` used in `__init__` (UTF-8 bytes of "test"). -/
def probeBytes : List Nat := utf8 "test"

/-- `_encode_string` with the calling-convention flag passed explicitly:
if `accepts_bytes`, call the tokenizer on the UTF-8 bytes of `s`,
otherwise pass the string `s` through unchanged. -/
def encodeStringWith (g : GTokenizer) (accepts_bytes : Bool) (s : String) :
    Except Nat (List TokenId) :=
  if accepts_bytes then g.encodeBytes (utf8 s) else g.encodeStr s

/-- The adapter state built by `TokenizerWrapper.__init__`. -/
structure TokenizerWrapper where
  gtokenizer : GTokenizer
  eos_token_id : TokenId
  bos_token_id : Option TokenId
  tokens : List (List Nat)
  accepts_bytes : Bool
  prefix_string : String
  prefix_tokens : List TokenId

/-- `TokenizerWrapper.__init__`: copy the metadata fields, probe the callable
with `b"test"` (swallowing any error into `accepts_bytes = false`), then
encode the sentinel `"\x02"`; if that encoding raises, construction itself
raises (`none`). -/
def TokenizerWrapper.init (g : GTokenizer) : Option TokenizerWrapper :=
  match encodeStringWith g (exceptOk (g.encodeBytes probeBytes)) "\x02" with
  | Except.error _ => none
  | Except.ok pt =>
      some { gtokenizer := g
             eos_token_id := g.eos_token_id
             bos_token_id := g.bos_token_id
             tokens := g.tokens
             accepts_bytes := exceptOk (g.encodeBytes probeBytes)
             prefix_string := "\x02"
             prefix_tokens := pt }

/-- `TokenizerWrapper._encode_string` on the constructed adapter. -/
def TokenizerWrapper.encode_string (w : TokenizerWrapper) (s : String) :
    Except Nat (List TokenId) :=
  encodeStringWith w.gtokenizer w.accepts_bytes s

/-- Failure modes of `TokenizerWrapper.__call__`: an exception of the
underlying tokenizer propagating out unchanged, or the `AssertionError`
raised by the prefix-invariant check. -/
inductive EncodeError where
  | underlying (payload : Nat)
  | assertionFailed
deriving DecidableEq

/-- `TokenizerWrapper.__call__`: encode `prefix_string + s`, assert that the
result starts with `prefix_tokens`, and return the remainder.  The first
component is the adapter state after the call (the method never assigns to
`self`, so it is the input state). -/
def TokenizerWrapper.call (w : TokenizerWrapper) (s : String) :
    TokenizerWrapper × Except EncodeError (List TokenId) :=
  match w.encode_string (w.prefix_string ++ s) with
  | Except.error e => (w, Except.error (EncodeError.underlying e))
  | Except.ok tokens =>
      if tokens.take w.prefix_tokens.length = w.prefix_tokens then
        (w, Except.ok (tokens.drop w.prefix_tokens.length))
      else
        (w, Except.error EncodeError.assertionFailed)

/-- The adapter state after a sequence of `__call__` invocations. -/
def runCalls (w : TokenizerWrapper) : List String → TokenizerWrapper
  | [] => w
  | s :: rest => runCalls (w.call s).1 rest

/-! ### Helper lemmas -/

/-- Everything `__init__` guarantees about a successfully constructed
adapter: field provenance, the probed flag, the sentinel, and that
`prefix_tokens` is the (successful) encoding of the sentinel. -/
theorem wrapper_init_spec {g : GTokenizer} {w : TokenizerWrapper}
    (h : TokenizerWrapper.init g = some w) :
    w.gtokenizer = g ∧ w.eos_token_id = g.eos_token_id ∧
    w.bos_token_id = g.bos_token_id ∧ w.tokens = g.tokens ∧
    w.accepts_bytes = exceptOk (g.encodeBytes probeBytes) ∧
    w.prefix_string = "\x02" ∧
    encodeStringWith g w.accepts_bytes "\x02" = Except.ok w.prefix_tokens := by
  unfold TokenizerWrapper.init at h
  cases hm : encodeStringWith g (exceptOk (g.encodeBytes probeBytes)) "\x02" with
  | error e => rw [hm] at h; exact absurd h (by simp)
  | ok pt =>
      rw [hm] at h
      injection h with h
      subst h
      exact ⟨rfl, rfl, rfl, rfl, rfl, rfl, hm⟩

/-- `__call__` never assigns to `self`: the post-call state is the input. -/
theorem call_state_fst (w : TokenizerWrapper) (s : String) :
    (w.call s).1 = w := by
  unfold TokenizerWrapper.call
  cases hm : w.encode_string (w.prefix_string ++ s) with
  | error e => rfl
  | ok tokens =>
      by_cases hc : tokens.take w.prefix_tokens.length = w.prefix_tokens <;>
        simp [hc]

/-- A sequence of calls leaves the adapter state unchanged. -/
theorem runCalls_self (w : TokenizerWrapper) (ss : List String) :
    runCalls w ss = w := by
  induction ss with
  | nil => rfl
  | cons s rest ih =>
      rw [show runCalls w (s :: rest) = runCalls (w.call s).1 rest from rfl,
        call_state_fst]
      exact ih

/-- `_encode_string` on the adapter is `encodeStringWith` on the wrapped
tokenizer with the constructed flag. -/
theorem encode_string_eq {g : GTokenizer} {w : TokenizerWrapper}
    (h : TokenizerWrapper.init g = some w) (s : String) :
    w.encode_string s = encodeStringWith g w.accepts_bytes s := by
  unfold TokenizerWrapper.encode_string
  rw [(wrapper_init_spec h).1]

/-! ### Concrete tokenizers used to witness the theorems -/

/-- A tokenizer that accepts bytes (identity on byte values) and raises on
strings. -/
def byteTok : GTokenizer :=
  { encodeBytes := fun bs => Except.ok bs
    encodeStr := fun _ => Except.error 1
    eos_token_id := 0
    bos_token_id := none
    tokens := [] }

/-- The adapter `TokenizerWrapper.init byteTok` constructs. -/
def byteTokW : TokenizerWrapper :=
  { gtokenizer := byteTok
    eos_token_id := 0
    bos_token_id := none
    tokens := []
    accepts_bytes := true
    prefix_string := "\x02"
    prefix_tokens := [2] }

/-- A tokenizer that raises on bytes and accepts strings (one token per
character, the code point). -/
def strTok : GTokenizer :=
  { encodeBytes := fun _ => Except.error 7
    encodeStr := fun s => Except.ok (s.data.map (fun c => c.toNat))
    eos_token_id := 5
    bos_token_id := some 3
    tokens := [[97]] }

/-- The adapter `TokenizerWrapper.init strTok` constructs. -/
def strTokW : TokenizerWrapper :=
  { gtokenizer := strTok
    eos_token_id := 5
    bos_token_id := some 3
    tokens := [[97]]
    accepts_bytes := false
    prefix_string := "\x02"
    prefix_tokens := [2] }

/-- A tokenizer that merges across the sentinel boundary: the tokenization
of `"\x02" ++ t` for `t ≠ ""` does not start with the tokenization of
`"\x02"` alone. -/
def mergeTok : GTokenizer :=
  { encodeBytes := fun _ => Except.error 9
    encodeStr := fun s => if s = "\x02" then Except.ok [2] else Except.ok [99]
    eos_token_id := 0
    bos_token_id := none
    tokens := [] }

/-- The adapter `TokenizerWrapper.init mergeTok` constructs. -/
def mergeTokW : TokenizerWrapper :=
  { gtokenizer := mergeTok
    eos_token_id := 0
    bos_token_id := none
    tokens := []
    accepts_bytes := false
    prefix_string := "\x02"
    prefix_tokens := [2] }

/-- A tokenizer returning fewer tokens for `"\x02" ++ t` than for the
sentinel alone. -/
def shortTok : GTokenizer :=
  { encodeBytes := fun _ => Except.error 3
    encodeStr := fun s => if s = "\x02" then Except.ok [2, 3] else Except.ok []
    eos_token_id := 0
    bos_token_id := none
    tokens := [] }

/-- The adapter `TokenizerWrapper.init shortTok` constructs. -/
def shortTokW : TokenizerWrapper :=
  { gtokenizer := shortTok
    eos_token_id := 0
    bos_token_id := none
    tokens := []
    accepts_bytes := false
    prefix_string := "\x02"
    prefix_tokens := [2, 3] }

/-- A tokenizer that raises (payload 42) on every string other than the
sentinel alone. -/
def errTok : GTokenizer :=
  { encodeBytes := fun _ => Except.error 5
    encodeStr := fun s => if s = "\x02" then Except.ok [2] else Except.error 42
    eos_token_id := 0
    bos_token_id := none
    tokens := [] }

/-- The adapter `TokenizerWrapper.init errTok` constructs. -/
def errTokW : TokenizerWrapper :=
  { gtokenizer := errTok
    eos_token_id := 0
    bos_token_id := none
    tokens := []
    accepts_bytes := false
    prefix_string := "\x02"
    prefix_tokens := [2] }

/-- A tokenizer encoding the sentinel alone to the empty token sequence. -/
def emptyTok : GTokenizer :=
  { encodeBytes := fun _ => Except.error 4
    encodeStr := fun s => if s = "\x02" then Except.ok [] else Except.ok [7, 8]
    eos_token_id := 0
    bos_token_id := none
    tokens := [] }

/-- The adapter `TokenizerWrapper.init emptyTok` constructs. -/
def emptyTokW : TokenizerWrapper :=
  { gtokenizer := emptyTok
    eos_token_id := 0
    bos_token_id := none
    tokens := []
    accepts_bytes := false
    prefix_string := "\x02"
    prefix_tokens := [] }

/-! ### Claims -/

/-- Claim C1: for every text `t`, if the underlying tokenizer's encoding of
the sentinel `"\x02"` concatenated with `t` equals `prefix_tokens` followed
by some sequence `rest`, then the adapter's `encode(t)` returns exactly
`rest` (the full token sequence with the first `len(prefix_tokens)` entries
removed, order and values preserved). -/
theorem prefix_stripping_ok (g : GTokenizer) (w : TokenizerWrapper)
    (h : TokenizerWrapper.init g = some w) (t : String) (rest : List TokenId)
    (henc : encodeStringWith g w.accepts_bytes ("\x02" ++ t) =
      Except.ok (w.prefix_tokens ++ rest)) :
    (w.call t).2 = Except.ok rest := by
  obtain ⟨hg, -, -, -, -, hps, -⟩ := wrapper_init_spec h
  unfold TokenizerWrapper.call TokenizerWrapper.encode_string
  rw [hg, hps, henc]
  simp [List.take_left, List.drop_left]

theorem prefix_stripping_ok_witness : (byteTokW.call "a").2 = Except.ok [97] :=
  prefix_stripping_ok byteTok byteTokW rfl "a" [97] rfl

/-- Claim C2: for every text `t`, if the first `len(prefix_tokens)` entries
of the underlying tokenizer's encoding of sentinel + `t` do not equal
`prefix_tokens` element-wise, then `encode(t)` aborts (the prefix-invariant
`assert` raises) rather than returning a truncated slice, and the failure is
the assertion error identifying the prefix mismatch, distinct from any
underlying-tokenizer error. -/
theorem mismatch_aborts (g : GTokenizer) (w : TokenizerWrapper)
    (h : TokenizerWrapper.init g = some w) (t : String) (full : List TokenId)
    (henc : encodeStringWith g w.accepts_bytes ("\x02" ++ t) = Except.ok full)
    (hmis : full.take w.prefix_tokens.length ≠ w.prefix_tokens) :
    (w.call t).2 = Except.error EncodeError.assertionFailed := by
  obtain ⟨hg, -, -, -, -, hps, -⟩ := wrapper_init_spec h
  unfold TokenizerWrapper.call TokenizerWrapper.encode_string
  rw [hg, hps, henc]
  simp [hmis]

theorem mismatch_aborts_witness :
    (mergeTokW.call "a").2 = Except.error EncodeError.assertionFailed :=
  mismatch_aborts mergeTok mergeTokW rfl "a" [99] rfl (by decide)

/-- Claim C3: construction sets `accepts_bytes` to the success of the probe
invocation on byte input (true when it completes, false when it fails), and
construction itself never propagates a failure of that probe invocation:
construction fails exactly when encoding the sentinel fails, independently
of the probe's outcome. -/
theorem probe_sets_accepts_bytes (g : GTokenizer) :
    (∀ w, TokenizerWrapper.init g = some w →
      w.accepts_bytes = exceptOk (g.encodeBytes probeBytes)) ∧
    (TokenizerWrapper.init g = none ↔
      exceptOk (encodeStringWith g (exceptOk (g.encodeBytes probeBytes)) "\x02")
        = false) := by
  constructor
  · intro w h
    exact (wrapper_init_spec h).2.2.2.2.1
  · unfold TokenizerWrapper.init
    cases hm : encodeStringWith g (exceptOk (g.encodeBytes probeBytes)) "\x02" with
    | error e => simp [exceptOk]
    | ok pt => simp [exceptOk]

theorem probe_sets_accepts_bytes_witness :
    byteTokW.accepts_bytes = exceptOk (byteTok.encodeBytes probeBytes) :=
  (probe_sets_accepts_bytes byteTok).1 byteTokW rfl

/-- Claim C4: if the underlying tokenizer accepts byte input (its encode
succeeds on byte-sequence arguments), then after construction
`accepts_bytes` is true; if it raises on byte input but accepts text input,
then after construction `accepts_bytes` is false and every subsequent
encode call passes the string through unchanged rather than UTF-8 encoding
it. -/
theorem convention_correctness (g : GTokenizer) :
    ((∀ bs, exceptOk (g.encodeBytes bs) = true) →
      ∀ w, TokenizerWrapper.init g = some w → w.accepts_bytes = true) ∧
    ((∀ bs, exceptOk (g.encodeBytes bs) = false) →
      (∀ s, exceptOk (g.encodeStr s) = true) →
      ∀ w, TokenizerWrapper.init g = some w →
        w.accepts_bytes = false ∧ ∀ s, w.encode_string s = g.encodeStr s) := by
  constructor
  · intro hb w h
    rw [(wrapper_init_spec h).2.2.2.2.1, hb]
  · intro hb hs w h
    have hab : w.accepts_bytes = false := by
      rw [(wrapper_init_spec h).2.2.2.2.1, hb]
    refine ⟨hab, fun s => ?_⟩
    unfold TokenizerWrapper.encode_string
    rw [(wrapper_init_spec h).1, hab]
    simp [encodeStringWith]

theorem convention_correctness_witness :
    byteTokW.accepts_bytes = true ∧ strTokW.accepts_bytes = false ∧
    strTokW.encode_string "ab" = strTok.encodeStr "ab" :=
  ⟨(convention_correctness byteTok).1 (fun _ => rfl) byteTokW rfl,
   ((convention_correctness strTok).2 (fun _ => rfl) (fun _ => rfl) strTokW rfl).1,
   ((convention_correctness strTok).2 (fun _ => rfl) (fun _ => rfl) strTokW rfl).2 "ab"⟩

/-- Claim C5: whenever `encode(t)` returns normally with result `r`, the
underlying tokenizer's encoding of sentinel + `t` equals exactly
`prefix_tokens` followed by `r`; and if the underlying tokenizer returns
fewer than `len(prefix_tokens)` tokens for sentinel + `t`, `encode(t)`
fails (with the prefix assertion) rather than returning a result. -/
theorem call_ok_characterization (g : GTokenizer) (w : TokenizerWrapper)
    (h : TokenizerWrapper.init g = some w) (t : String) :
    (∀ r, (w.call t).2 = Except.ok r →
      encodeStringWith g w.accepts_bytes ("\x02" ++ t) =
        Except.ok (w.prefix_tokens ++ r)) ∧
    (∀ full, encodeStringWith g w.accepts_bytes ("\x02" ++ t) = Except.ok full →
      full.length < w.prefix_tokens.length →
      (w.call t).2 = Except.error EncodeError.assertionFailed) := by
  obtain ⟨hg, -, -, -, -, hps, -⟩ := wrapper_init_spec h
  constructor
  · intro r hr
    unfold TokenizerWrapper.call TokenizerWrapper.encode_string at hr
    rw [hg, hps] at hr
    cases hm : encodeStringWith g w.accepts_bytes ("\x02" ++ t) with
    | error e => rw [hm] at hr; simp at hr
    | ok tokens =>
        rw [hm] at hr
        by_cases hc : tokens.take w.prefix_tokens.length = w.prefix_tokens
        · simp [hc] at hr
          rw [← hc, ← hr, List.take_append_drop]
        · simp [hc] at hr
  · intro full henc hlen
    unfold TokenizerWrapper.call TokenizerWrapper.encode_string
    rw [hg, hps, henc]
    have hne : full.take w.prefix_tokens.length ≠ w.prefix_tokens := by
      intro hq
      have hlq := congrArg List.length hq
      rw [List.length_take, Nat.min_eq_right (Nat.le_of_lt hlen)] at hlq
      omega
    simp [hne]

theorem call_ok_characterization_witness :
    encodeStringWith byteTok byteTokW.accepts_bytes ("\x02" ++ "a") =
      Except.ok (byteTokW.prefix_tokens ++ [97]) ∧
    (shortTokW.call "a").2 = Except.error EncodeError.assertionFailed :=
  ⟨(call_ok_characterization byteTok byteTokW rfl "a").1 [97] rfl,
   (call_ok_characterization shortTok shortTokW rfl "a").2 [] rfl (by decide)⟩

/-- Claim C6: for every text `t`, any error the underlying tokenizer raises
while encoding sentinel + `t` during `encode(t)` propagates to the caller of
encode with its payload unchanged; the adapter neither catches nor
transforms it. -/
theorem underlying_error_propagates (g : GTokenizer) (w : TokenizerWrapper)
    (h : TokenizerWrapper.init g = some w) (t : String) (e : Nat)
    (henc : encodeStringWith g w.accepts_bytes ("\x02" ++ t) = Except.error e) :
    (w.call t).2 = Except.error (EncodeError.underlying e) := by
  obtain ⟨hg, -, -, -, -, hps, -⟩ := wrapper_init_spec h
  unfold TokenizerWrapper.call TokenizerWrapper.encode_string
  rw [hg, hps, henc]

theorem underlying_error_propagates_witness :
    (errTokW.call "a").2 = Except.error (EncodeError.underlying 42) :=
  underlying_error_propagates errTok errTokW rfl "a" 42 rfl

/-- Claim C7: if the tokenization of the sentinel alone equals
`prefix_tokens` exactly (encoding sentinel + "" yields exactly
`prefix_tokens`, no extra tokens for empty content), then `encode("")`
returns the empty sequence. -/
theorem empty_string_encodes_empty (g : GTokenizer) (w : TokenizerWrapper)
    (h : TokenizerWrapper.init g = some w)
    (hexact : encodeStringWith g w.accepts_bytes "\x02" =
      Except.ok w.prefix_tokens) :
    (w.call "").2 = Except.ok [] := by
  obtain ⟨hg, -, -, -, -, hps, -⟩ := wrapper_init_spec h
  unfold TokenizerWrapper.call TokenizerWrapper.encode_string
  rw [hg, hps, show ("\x02" ++ "" : String) = "\x02" from rfl, hexact]
  simp

theorem empty_string_encodes_empty_witness : (byteTokW.call "").2 = Except.ok [] :=
  empty_string_encodes_empty byteTok byteTokW rfl rfl

/-- Claim C8: if the underlying tokenizer encodes the sentinel `"\x02"`
alone to the empty sequence, then `prefix_tokens` is empty, the prefix
invariant check is vacuously satisfied, and for every text `t` whose
encoding succeeds, `encode(t)` returns the underlying tokenizer's full
encoding of sentinel + `t`, including whatever tokens the sentinel
contributes. -/
theorem empty_prefix_full_encoding (g : GTokenizer) (w : TokenizerWrapper)
    (h : TokenizerWrapper.init g = some w)
    (hsent : encodeStringWith g w.accepts_bytes "\x02" = Except.ok [])
    (t : String) (full : List TokenId)
    (henc : encodeStringWith g w.accepts_bytes ("\x02" ++ t) = Except.ok full) :
    w.prefix_tokens = [] ∧ (w.call t).2 = Except.ok full := by
  obtain ⟨hg, -, -, -, -, hps, hpt⟩ := wrapper_init_spec h
  have hempty : w.prefix_tokens = [] := Except.ok.inj (hpt.symm.trans hsent)
  refine ⟨hempty, ?_⟩
  unfold TokenizerWrapper.call TokenizerWrapper.encode_string
  rw [hg, hps, henc]
  simp [hempty]

theorem empty_prefix_full_encoding_witness :
    emptyTokW.prefix_tokens = [] ∧ (emptyTokW.call "a").2 = Except.ok [7, 8] :=
  empty_prefix_full_encoding emptyTok emptyTokW rfl rfl "a" [7, 8] rfl

/-- Claim C9: every call to encode leaves all adapter fields unchanged:
after any sequence of encode calls, `eos_token_id`, `bos_token_id`,
`tokens`, `accepts_bytes`, `prefix_string`, and `prefix_tokens` hold
exactly the values fixed at construction. -/
theorem fields_unchanged_by_calls (g : GTokenizer) (w : TokenizerWrapper)
    (h : TokenizerWrapper.init g = some w) (ss : List String) :
    (runCalls w ss).eos_token_id = g.eos_token_id ∧
    (runCalls w ss).bos_token_id = g.bos_token_id ∧
    (runCalls w ss).tokens = g.tokens ∧
    (runCalls w ss).accepts_bytes = exceptOk (g.encodeBytes probeBytes) ∧
    (runCalls w ss).prefix_string = "\x02" ∧
    encodeStringWith g (runCalls w ss).accepts_bytes "\x02" =
      Except.ok ((runCalls w ss).prefix_tokens) := by
  obtain ⟨hg, he, hb, ht, hab, hps, hpt⟩ := wrapper_init_spec h
  rw [runCalls_self]
  exact ⟨he, hb, ht, hab, hps, hpt⟩

theorem fields_unchanged_by_calls_witness :
    (runCalls byteTokW ["a", "bc"]).eos_token_id = byteTok.eos_token_id ∧
    (runCalls byteTokW ["a", "bc"]).bos_token_id = byteTok.bos_token_id ∧
    (runCalls byteTokW ["a", "bc"]).tokens = byteTok.tokens ∧
    (runCalls byteTokW ["a", "bc"]).accepts_bytes =
      exceptOk (byteTok.encodeBytes probeBytes) ∧
    (runCalls byteTokW ["a", "bc"]).prefix_string = "\x02" ∧
    encodeStringWith byteTok (runCalls byteTokW ["a", "bc"]).accepts_bytes "\x02" =
      Except.ok ((runCalls byteTokW ["a", "bc"]).prefix_tokens) :=
  fields_unchanged_by_calls byteTok byteTokW rfl ["a", "bc"]

/-- Claim C10: for every text `t`, two successive calls `encode(t)` on the
same adapter (the underlying tokenizer being a fixed function) yield
identical results — the second call, run on the state the first call left
behind, returns the first call's result. -/
theorem call_deterministic (w : TokenizerWrapper) (t : String) :
    (((w.call t).1).call t).2 = (w.call t).2 := by
  rw [call_state_fst]
